import Mathlib

/-!
Verification of the directive codec and refresh coordinator of
`emulateX11WindowType.js` (desktop-icons-ng).

The JavaScript source is shallowly embedded: `ManageWindow._parseTitle`
becomes the pure function `parseTitleFull` (directive state plus the list of
side-effecting compositor calls it issues), and the
`EmulateX11WindowType` coordinator becomes explicit state passing over the
structure `Coord`.  JavaScript numbers produced by `parseInt` are modelled by
`JSNum` (either an integer or NaN, since `parseInt` never throws), and
JavaScript `null` by `Option`.
-/

/-- Result of JavaScript `parseInt`: an integer, or NaN when no digits parse. -/
inductive JSNum where
  | nan : JSNum
  | int : Int → JSNum
deriving DecidableEq, Repr

/-- The whitespace characters trimmed by JavaScript `String.prototype.trim`
(ASCII subset; the titles at issue are ASCII). -/
def isJsSpace (c : Char) : Bool :=
  c == ' ' || c == '\t' || c == '\n' || c == '\r' || c == '\x0b' || c == '\x0c'

/-- JavaScript `String.prototype.trim` on a character list. -/
def jsTrim (l : List Char) : List Char :=
  ((l.dropWhile isJsSpace).reverse.dropWhile isJsSpace).reverse

/-- JavaScript `String.prototype.substring(a, b)`: clamps both indices to the
string length and swaps them when `a > b`. -/
def jsSubstring (l : List Char) (a b : Nat) : List Char :=
  let a := min a l.length
  let b := min b l.length
  (l.take (max a b)).drop (min a b)

/-- JavaScript `split(",")` (no limit): splits on every comma; the empty
string yields one empty field. -/
def splitOnCommaGo (cur : List Char) : List Char → List (List Char)
  | [] => [cur.reverse]
  | c :: cs =>
      if c == ',' then cur.reverse :: splitOnCommaGo [] cs
      else splitOnCommaGo (c :: cur) cs

/-- JavaScript `s.split(",")` on a character list. -/
def splitOnComma (l : List Char) : List (List Char) :=
  splitOnCommaGo [] l

/-- Digit value of a character in the given radix, as JavaScript `parseInt`
accepts them (0-9, a-z, A-Z). -/
def charDigit (c : Char) (radix : Nat) : Option Nat :=
  let v : Option Nat :=
    if '0' ≤ c ∧ c ≤ '9' then some (c.toNat - '0'.toNat)
    else if 'a' ≤ c ∧ c ≤ 'z' then some (c.toNat - 'a'.toNat + 10)
    else if 'A' ≤ c ∧ c ≤ 'Z' then some (c.toNat - 'A'.toNat + 10)
    else none
  match v with
  | some v => if v < radix then some v else none
  | none => none

/-- Accumulate the longest prefix of valid digits, as `parseInt` does
(characters after the first invalid one are ignored). -/
def parseDigitsGo (radix : Nat) (acc : Nat) : List Char → Nat
  | [] => acc
  | c :: cs =>
      match charDigit c radix with
      | some v => parseDigitsGo radix (acc * radix + v) cs
      | none => acc

/-- JavaScript `parseInt(s)` with no explicit radix: trim, optional sign,
auto-detected `0x` hex prefix, then the longest digit prefix; NaN when no
digit parses.  It never throws. -/
def jsParseInt (l : List Char) : JSNum :=
  let l := jsTrim l
  let sl : Int × List Char :=
    match l with
    | '-' :: rest => (-1, rest)
    | '+' :: rest => (1, rest)
    | _ => (1, l)
  let rl : Nat × List Char :=
    match sl.2 with
    | '0' :: 'x' :: rest => (16, rest)
    | '0' :: 'X' :: rest => (16, rest)
    | _ => (10, sl.2)
  match rl.2 with
  | [] => JSNum.nan
  | c :: _ =>
      if (charDigit c rl.1).isSome then
        JSNum.int (sl.1 * (parseDigitsGo rl.1 0 rl.2 : Int))
      else JSNum.nan

/-- `parseInt` applied to a possibly-missing array element: JavaScript
`parseInt(undefined)` is NaN. -/
def jsParseIntOpt (o : Option (List Char)) : JSNum :=
  match o with
  | none => JSNum.nan
  | some l => jsParseInt l

/-- First index at which `pat` occurs in `l` (JavaScript
`String.prototype.search` with a literal pattern; note `search` takes no
start index — any second argument is ignored). -/
def indexOfSubFrom (pat : List Char) : List Char → Nat → Option Nat
  | [], i => if pat.isEmpty then some i else none
  | c :: cs, i =>
      if pat.isPrefixOf (c :: cs) then some i
      else indexOfSubFrom pat cs (i + 1)

/-- JavaScript `l.search(pat)` for a literal pattern, as an `Option Nat`
(`none` encodes the sentinel -1). -/
def indexOfSub (l pat : List Char) : Option Nat :=
  indexOfSubFrom pat l 0

/-- The decoded directive state of `ManageWindow` after `_parseTitle`:
fields `_x`, `_y`, `_keepAtBottom`, `_keepAtTop`, `_showInAllDesktops`,
`_hideFromWindowList`, `_fixed` of the source. -/
structure MWState where
  x : Option JSNum
  y : Option JSNum
  keepAtBottom : Bool
  keepAtTop : Bool
  showInAllDesktops : Bool
  hideFromWindowList : Bool
  fixed : Bool
deriving DecidableEq, Repr

/-- The reset state written at the top of `_parseTitle` (also the state an
absent directive decodes to). -/
def initMW : MWState :=
  { x := none, y := none, keepAtBottom := false, keepAtTop := false,
    showInAllDesktops := false, hideFromWindowList := false, fixed := false }

/-- One step of the flag `switch` in `_parseTitle`. -/
def applyFlagChar (st : MWState) (c : Char) : MWState :=
  if c == 'B' then { st with keepAtBottom := true, keepAtTop := false }
  else if c == 'T' then { st with keepAtTop := true, keepAtBottom := false }
  else if c == 'D' then { st with showInAllDesktops := true }
  else if c == 'H' then { st with hideFromWindowList := true }
  else if c == 'F' then { st with fixed := true }
  else st

/-- The `for (let char of extra_chars)` flag scan of `_parseTitle`. -/
def scanFlags (st : MWState) (cs : List Char) : MWState :=
  cs.foldl applyFlagChar st

/-- The trailing-whitespace rewrite at the top of `_parseTitle`: a title
whose last character is a space becomes the literal `"@!H"`, or `"@!HTD"`
when the second-to-last character is a space too. -/
def rewriteTrailing (l : List Char) : List Char :=
  if (decide (0 < l.length)) && (l[l.length - 1]? == some ' ') then
    if (decide (1 < l.length)) && (l[l.length - 2]? == some ' ') then
      "@!HTD".toList
    else
      "@!H".toList
  else l

/-- The marker searched for by `title.search("@!")`. -/
def markerChars : List Char := "@!".toList

/-- Directive extraction of `_parseTitle` after the trailing-space rewrite:
locate the marker, split out the coordinate field (note the source calls
`title.search(";", pos)`, and `search` ignores its second argument, so the
first semicolon of the whole string is used), `parseInt` the first two
comma-separated tokens, then scan the whole suffix after the marker for
flag letters after uppercasing. -/
def parseTitleCore (l : List Char) : MWState :=
  match indexOfSub l markerChars with
  | none => initMW
  | some pos =>
      let coordsrc : List Char :=
        match indexOfSub l [';'] with
        | some pos2 => jsSubstring l (pos + 2) pos2
        | none => l.drop (pos + 2)
      let coords := splitOnComma (jsTrim coordsrc)
      let extra := (jsTrim (l.drop (pos + 2))).map Char.toUpper
      scanFlags
        { initMW with
          x := some (jsParseIntOpt coords[0]?),
          y := some (jsParseIntOpt coords[1]?) }
        extra

/-- Side-effecting compositor/bridge calls issued by `_parseTitle` after
decoding (lines 141-161 of the source), in order. -/
inductive MWAction where
  | hideFromList : MWAction
  | showInList : MWAction
  | makeAbove : MWAction
  | unmakeAbove : MWAction
  | lower : MWAction
  | moveFrame : JSNum → JSNum → MWAction
  | changedStatus : MWAction
deriving DecidableEq, Repr

/-- The enforcement epilogue of `_parseTitle`: wayland window-list toggle,
above toggle on a top-pin transition, lower when bottom-pinned, and the
fixed-position `move_frame` guarded only by `!== null` (NaN passes that
guard). -/
def applyEpilogue (st : MWState) (prevKeepAtTop hasWayland : Bool) : List MWAction :=
  (if hasWayland then
     [if st.hideFromWindowList then MWAction.hideFromList else MWAction.showInList]
   else []) ++
  (if st.keepAtTop != prevKeepAtTop then
     [if st.keepAtTop then MWAction.makeAbove else MWAction.unmakeAbove]
   else []) ++
  (if st.keepAtBottom then [MWAction.lower] else []) ++
  (if st.fixed && st.x.isSome && st.y.isSome then
     [MWAction.moveFrame (st.x.getD JSNum.nan) (st.y.getD JSNum.nan)]
   else []) ++
  [MWAction.changedStatus]

/-- `ManageWindow._parseTitle` as a pure function: from the window title
(`none` models a null title) and the pre-call values the source reads
(`this._keepAtTop` before reset, whether a wayland client is set) to the new
directive state and the list of compositor calls performed. -/
def parseTitleFull (title : Option String) (prevKeepAtTop hasWayland : Bool) :
    MWState × List MWAction :=
  match title with
  | none => (initMW, [])
  | some t =>
      let st := parseTitleCore (rewriteTrailing t.toList)
      (st, applyEpilogue st prevKeepAtTop hasWayland)

/-- The directive codec: the state `_parseTitle` decodes from a title
(independent of the pre-call state, which only influences the side
effects). -/
def decode (title : Option String) : MWState :=
  (parseTitleFull title false false).1

/-- The `position-changed` handler of `ManageWindow`: snaps back to the
stored coordinates when `_fixed` and both coordinates are non-null. -/
def positionChangedActions (st : MWState) : List MWAction :=
  if st.fixed && st.x.isSome && st.y.isSome then
    [MWAction.moveFrame (st.x.getD JSNum.nan) (st.y.getD JSNum.nan)]
  else []

/-- Whether a title contains the directive marker. -/
def containsMarker (l : List Char) : Bool :=
  (indexOfSub l markerChars).isSome

/-- The title ends in exactly one trailing space: its last character is a
space and the character before it (if any) is not. -/
def endsExactlyOneSpace (l : List Char) : Bool :=
  (l[l.length - 1]? == some ' ') && !((decide (1 < l.length)) && (l[l.length - 2]? == some ' '))

/-- The title ends in two or more trailing spaces: its last two characters
are spaces. -/
def endsTwoSpaces (l : List Char) : Bool :=
  (decide (1 < l.length)) && (l[l.length - 1]? == some ' ') && (l[l.length - 2]? == some ' ')

/-- Modelled from the claim wording of C7: the coordinate field is the
substring starting just after the marker, extending to the next semicolon
occurring at or after the marker, or to the end of the string when no such
semicolon exists. -/
def claimCoordinateField (l : List Char) : Option (List Char) :=
  match indexOfSub l markerChars with
  | none => none
  | some pos =>
      some (match indexOfSub (l.drop pos) [';'] with
            | some k => jsSubstring l (pos + 2) (pos + k)
            | none => l.drop (pos + 2))

/-- A window as seen by the refresh pass: whether it carries a
`customJS_ding` record, that record's `_keepAtBottom` value, and the
window's `minimized` state. -/
structure WindowRec where
  id : Nat
  hasDing : Bool
  keepAtBottom : Bool
  minimized : Bool
deriving DecidableEq, Repr

/-- The activation arbitration at the end of a workspace-affecting refresh
(lines 314-333 of the source): first non-skipped window of the active
workspace tab list, else first non-minimized bottom-pinned managed window,
else none. -/
def activationTarget (tabs managed : List WindowRec) : Option WindowRec :=
  match tabs.find? (fun w => (!w.hasDing || !w.keepAtBottom) && !w.minimized) with
  | some w => some w
  | none => managed.find? (fun w => w.hasDing && w.keepAtBottom && !w.minimized)

/-- Activation arbitration as the claim words it: enumerate the active
workspace in stacking order, skipping minimized windows and windows whose
directive has pinBottom set; if none match, scan the managed set for a
non-minimized bottom-pinned window. -/
def specActivationTarget (tabs managed : List WindowRec) : Option WindowRec :=
  match tabs.find? (fun w => !w.minimized && !(w.hasDing && w.keepAtBottom)) with
  | some w => some w
  | none => managed.find? (fun w => !w.minimized && w.hasDing && w.keepAtBottom)

/-- State of an `EmulateX11WindowType` instance, together with the live
handler counts on the compositor objects it connects to (so that duplicate
or stale subscriptions are observable).  `activateWindowID` models the
pending idle source: `some cw` is a scheduled callback whose closure
captured `checkWorkspace = cw`. -/
structure Coord where
  isX11 : Bool
  windowList : List WindowRec
  enableRefresh : Bool
  activateWindowID : Option Bool
  idMap : Bool
  idDestroy : Bool
  switchWorkspaceId : Bool
  showingId : Bool
  hidingId : Bool
  mapSubs : Nat
  destroySubs : Nat
  switchSubs : Nat
  showingSubs : Nat
  hidingSubs : Nat
deriving DecidableEq, Repr

/-- The constructor state of `EmulateX11WindowType` (no subscriptions, no
managed windows, refresh enabled, no pending idle source). -/
def initCoord (isX11 : Bool) : Coord :=
  { isX11 := isX11, windowList := [], enableRefresh := true,
    activateWindowID := none,
    idMap := false, idDestroy := false, switchWorkspaceId := false,
    showingId := false, hidingId := false,
    mapSubs := 0, destroySubs := 0, switchSubs := 0,
    showingSubs := 0, hidingSubs := 0 }

/-- `enable()`: a no-op on X11, otherwise connects the five compositor-wide
handlers (map, destroy, switch-workspace, overview showing/hiding). -/
def enable (s : Coord) : Coord :=
  if s.isX11 then s
  else
    { s with
      idMap := true, mapSubs := s.mapSubs + 1,
      idDestroy := true, destroySubs := s.destroySubs + 1,
      switchWorkspaceId := true, switchSubs := s.switchSubs + 1,
      showingId := true, showingSubs := s.showingSubs + 1,
      hidingId := true, hidingSubs := s.hidingSubs + 1 }

/-- `disable()`: a no-op on X11, otherwise removes any pending idle source,
clears every managed record, and disconnects each stored handler id. -/
def disable (s : Coord) : Coord :=
  if s.isX11 then s
  else
    let s1 :=
      match s.activateWindowID with
      | some _ => { s with activateWindowID := none }
      | none => s
    let s2 := { s1 with windowList := ([] : List WindowRec) }
    let s3 := if s2.idMap then
        { s2 with idMap := false, mapSubs := s2.mapSubs - 1 } else s2
    let s4 := if s3.idDestroy then
        { s3 with idDestroy := false, destroySubs := s3.destroySubs - 1 } else s3
    let s5 := if s4.switchWorkspaceId then
        { s4 with switchWorkspaceId := false, switchSubs := s4.switchSubs - 1 } else s4
    let s6 := if s5.showingId then
        { s5 with showingId := false, showingSubs := s5.showingSubs - 1 } else s5
    if s6.hidingId then
      { s6 with hidingId := false, hidingSubs := s6.hidingSubs - 1 } else s6

/-- `_refreshWindows(checkWorkspace)`: when no idle source is pending,
schedule one whose closure captures the given flag; when one is already
pending, do nothing at all (the captured flag is not updated). -/
def refreshWindows (cw : Bool) (s : Coord) : Coord :=
  match s.activateWindowID with
  | some _ => s
  | none => { s with activateWindowID := some cw }

/-- The overview `showing` handler: disables refresh work. -/
def overviewShowing (s : Coord) : Coord :=
  if s.showingId then { s with enableRefresh := false } else s

/-- The overview `hiding` handler: re-enables refresh work and schedules a
workspace-checking refresh. -/
def overviewHiding (s : Coord) : Coord :=
  if s.hidingId then refreshWindows true { s with enableRefresh := true } else s

/-- Observable work performed by the deferred refresh pass. -/
inductive CAction where
  | refreshState : Nat → Bool → CAction
  | activate : Nat → CAction
deriving DecidableEq, Repr

/-- The body of the idle callback scheduled by `_refreshWindows`: when
refresh is enabled, refresh every managed window with the captured flag and,
if that flag is set, activate the arbitration target; in any case the pass
clears the pending source id.  `tabs` is the active workspace tab list
queried from the compositor. -/
def idleCallback (tabs : List WindowRec) (s : Coord) : Coord × List CAction :=
  match s.activateWindowID with
  | none => (s, [])
  | some cw =>
      let acts : List CAction :=
        if s.enableRefresh then
          (s.windowList.map (fun w => CAction.refreshState w.id cw)) ++
          (if cw then
             match activationTarget tabs s.windowList with
             | some w => [CAction.activate w.id]
             | none => []
           else [])
        else []
      ({ s with activateWindowID := none }, acts)

/-- A burst of refresh triggers arriving within one event-loop turn. -/
def runTriggers (cws : List Bool) (s : Coord) : Coord :=
  cws.foldl (fun s cw => refreshWindows cw s) s

/-- Each live handler count on the compositor matches the stored handler id
(the situation every properly bracketed enable/disable history maintains). -/
def subsConsistent (s : Coord) : Bool :=
  (s.mapSubs == (if s.idMap then 1 else 0)) &&
  (s.destroySubs == (if s.idDestroy then 1 else 0)) &&
  (s.switchSubs == (if s.switchWorkspaceId then 1 else 0)) &&
  (s.showingSubs == (if s.showingId then 1 else 0)) &&
  (s.hidingSubs == (if s.hidingId then 1 else 0))


theorem find?_ext {α : Type} (p q : α → Bool) (l : List α) (h : ∀ a, p a = q a) :
    l.find? p = l.find? q := by
  induction l with
  | nil => rfl
  | cons a t ih =>
      simp only [List.find?]
      rw [h a]
      cases q a
      · exact ih
      · rfl

theorem applyFlagChar_mutex (st : MWState) (c : Char)
    (h : ¬(st.keepAtBottom = true ∧ st.keepAtTop = true)) :
    ¬((applyFlagChar st c).keepAtBottom = true ∧ (applyFlagChar st c).keepAtTop = true) := by
  unfold applyFlagChar
  split_ifs <;> simp_all

theorem scanFlags_mutex (cs : List Char) (st : MWState)
    (h : ¬(st.keepAtBottom = true ∧ st.keepAtTop = true)) :
    ¬((scanFlags st cs).keepAtBottom = true ∧ (scanFlags st cs).keepAtTop = true) := by
  induction cs generalizing st with
  | nil => exact h
  | cons c cs ih => exact ih (applyFlagChar st c) (applyFlagChar_mutex st c h)

theorem parseTitleCore_mutex (l : List Char) :
    ¬((parseTitleCore l).keepAtBottom = true ∧ (parseTitleCore l).keepAtTop = true) := by
  unfold parseTitleCore
  cases indexOfSub l markerChars with
  | none => simp [initMW]
  | some pos =>
      exact scanFlags_mutex _ _ (by simp [initMW])

theorem applyFlagChar_other (st : MWState) (c : Char) (hb : c ≠ 'B') (ht : c ≠ 'T') :
    (applyFlagChar st c).keepAtBottom = st.keepAtBottom ∧
    (applyFlagChar st c).keepAtTop = st.keepAtTop := by
  unfold applyFlagChar
  split_ifs <;> simp_all

theorem scanFlags_noBT (cs : List Char) (st : MWState)
    (h : ∀ c ∈ cs, c ≠ 'B' ∧ c ≠ 'T') :
    (scanFlags st cs).keepAtBottom = st.keepAtBottom ∧
    (scanFlags st cs).keepAtTop = st.keepAtTop := by
  induction cs generalizing st with
  | nil => exact ⟨rfl, rfl⟩
  | cons c cs ih =>
      have hc := h c (by simp)
      have ht := ih (applyFlagChar st c) (fun d hd => h d (by simp [hd]))
      have ha := applyFlagChar_other st c hc.1 hc.2
      exact ⟨ht.1.trans ha.1, ht.2.trans ha.2⟩

theorem scanFlags_lastFlag (cs : List Char) (b : Char) (hb : b = 'B' ∨ b = 'T')
    (st : MWState)
    (h : (cs.filter (fun c => c == 'B' || c == 'T')).getLast? = some b) :
    (scanFlags st cs).keepAtBottom = (b == 'B') ∧
    (scanFlags st cs).keepAtTop = (b == 'T') := by
  revert h
  induction cs generalizing st with
  | nil => intro h; simp at h
  | cons c cs ih =>
      intro h
      by_cases hc : ((c == 'B' || c == 'T') = true)
      · rw [List.filter_cons, if_pos hc] at h
        cases hfc : cs.filter (fun c => c == 'B' || c == 'T') with
        | nil =>
            rw [hfc] at h
            have hcb : c = b := by simpa using h
            subst hcb
            have hnone : ∀ d ∈ cs, d ≠ 'B' ∧ d ≠ 'T' := by
              intro d hd
              have hnd := List.filter_eq_nil_iff.mp hfc d hd
              constructor <;> intro he <;> subst he <;> simp at hnd
            have hs := scanFlags_noBT cs (applyFlagChar st c) hnone
            refine ⟨hs.1.trans ?_, hs.2.trans ?_⟩ <;>
              rcases hb with hb | hb <;> subst hb <;> rfl
        | cons d ds =>
            rw [hfc, List.getLast?_cons_cons, ← hfc] at h
            exact ih (applyFlagChar st c) h
      · rw [List.filter_cons, if_neg hc] at h
        exact ih (applyFlagChar st c) h

theorem rewriteTrailing_one (l : List Char) (h : endsExactlyOneSpace l = true) :
    rewriteTrailing l = "@!H".toList := by
  simp only [endsExactlyOneSpace, Bool.and_eq_true, Bool.not_eq_true] at h
  obtain ⟨h1, h2⟩ := h
  have hlen : 0 < l.length := by
    cases l with
    | nil => simp at h1
    | cons a t => simp
  have h2f : (decide (1 < l.length) && (l[l.length - 2]? == some ' ')) = false := by
    cases hx : (decide (1 < l.length) && (l[l.length - 2]? == some ' ')) with
    | false => rfl
    | true => rw [hx] at h2; cases h2
  unfold rewriteTrailing
  rw [h2f, h1]
  simp [hlen]

theorem rewriteTrailing_two (l : List Char) (h : endsTwoSpaces l = true) :
    rewriteTrailing l = "@!HTD".toList := by
  simp only [endsTwoSpaces, Bool.and_eq_true] at h
  obtain ⟨⟨h0, h1⟩, h2⟩ := h
  have hlen : 0 < l.length := by
    have := of_decide_eq_true h0
    omega
  unfold rewriteTrailing
  rw [h0, h1, h2]
  simp [hlen]

theorem runTriggers_pending (cws : List Bool) (s : Coord)
    (h : s.activateWindowID.isSome = true) : runTriggers cws s = s := by
  induction cws with
  | nil => rfl
  | cons c cs ih =>
      have hr : refreshWindows c s = s := by
        unfold refreshWindows
        rcases hA : s.activateWindowID with _ | v
        · rw [hA] at h; cases h
        · rfl
      show runTriggers cs (refreshWindows c s) = s
      rw [hr]
      exact ih

/-- Claim C1: the spec says a coordinate-parse failure leaves the position
unset (null) and skips position-based behaviors.  The code disagrees:
JavaScript parseInt never throws, so the dead try/catch swallows nothing,
the position becomes NaN, the NaN passes the `!== null` guards, and the
fixed-position `move_frame(false, NaN, NaN)` is performed both at decode
time and on position-changed (flag decoding does still proceed). -/
theorem parse_failure_nan_not_null :
    (decode (some "@!q,w;F")).x = some JSNum.nan ∧
    (decode (some "@!q,w;F")).y = some JSNum.nan ∧
    (decode (some "@!q,w;F")).fixed = true ∧
    MWAction.moveFrame JSNum.nan JSNum.nan ∈ (parseTitleFull (some "@!q,w;F") false false).2 ∧
    positionChangedActions (decode (some "@!q,w;F")) =
      [MWAction.moveFrame JSNum.nan JSNum.nan] := by decide

/-- Claim C3, counterexample: the title "a " contains no marker, yet the
trailing-space rewrite turns it into "@!H", so it does not decode to the
empty Directive (hideFromWindowList comes out true). -/
theorem decode_no_marker_counterexample :
    containsMarker "a ".toList = false ∧
    (decode (some "a ")).hideFromWindowList = true ∧
    decode (some "a ") ≠ initMW := by decide

/-- Claim C3, amended: every title that contains no marker and whose last
character is not a space decodes to the empty Directive (all flags false,
no position). -/
theorem decode_no_marker_empty (t : String)
    (hm : containsMarker t.toList = false)
    (hs : t.toList[t.toList.length - 1]? ≠ some ' ') :
    decode (some t) = initMW := by
  have hb : (t.toList[t.toList.length - 1]? == some ' ') = false := by
    cases hx : (t.toList[t.toList.length - 1]? == some ' ') with
    | false => rfl
    | true => exact absurd (by simpa using hx) hs
  have hr : rewriteTrailing t.toList = t.toList := by
    unfold rewriteTrailing
    rw [hb]
    simp
  have hn : indexOfSub t.toList markerChars = none := by
    rcases hI : indexOfSub t.toList markerChars with _ | p
    · rfl
    · rw [containsMarker, hI] at hm
      simp at hm
  have hd : decode (some t) = parseTitleCore (rewriteTrailing t.toList) := rfl
  rw [hd, hr]
  unfold parseTitleCore
  rw [hn]

theorem decode_no_marker_empty_witness :
    containsMarker "hello".toList = false ∧
    "hello".toList["hello".toList.length - 1]? ≠ some ' ' ∧
    decode (some "hello") = initMW :=
  ⟨by decide, by decide, decode_no_marker_empty "hello" (by decide) (by decide)⟩

/-- Claim C5: after any decode (of any title, or a null title) pinBottom and
pinTop are never simultaneously true, and the later of the mutually
exclusive letters B/T seen by the flag scan wins. -/
theorem decode_pin_mutex :
    (∀ t : Option String,
        ¬((decode t).keepAtBottom = true ∧ (decode t).keepAtTop = true)) ∧
    (∀ (st : MWState) (cs : List Char),
        (cs.filter (fun c => c == 'B' || c == 'T')).getLast? = some 'B' →
        (scanFlags st cs).keepAtBottom = true ∧ (scanFlags st cs).keepAtTop = false) ∧
    (∀ (st : MWState) (cs : List Char),
        (cs.filter (fun c => c == 'B' || c == 'T')).getLast? = some 'T' →
        (scanFlags st cs).keepAtTop = true ∧ (scanFlags st cs).keepAtBottom = false) := by
  refine ⟨?_, ?_, ?_⟩
  · intro t
    cases t with
    | none => simp [decode, parseTitleFull, initMW]
    | some s =>
        have hd : decode (some s) = parseTitleCore (rewriteTrailing s.toList) := rfl
        rw [hd]
        exact parseTitleCore_mutex _
  · intro st cs h
    have := scanFlags_lastFlag cs 'B' (Or.inl rfl) st h
    simpa using this
  · intro st cs h
    have := scanFlags_lastFlag cs 'T' (Or.inr rfl) st h
    exact ⟨by simpa using this.2, by simpa using this.1⟩

theorem decode_pin_mutex_witness :
    (¬((decode (some "@!TB")).keepAtBottom = true ∧ (decode (some "@!TB")).keepAtTop = true)) ∧
    ((['T', 'B'].filter (fun c => c == 'B' || c == 'T')).getLast? = some 'B' ∧
      (scanFlags initMW ['T', 'B']).keepAtBottom = true ∧
      (scanFlags initMW ['T', 'B']).keepAtTop = false) ∧
    ((['B', 'T'].filter (fun c => c == 'B' || c == 'T')).getLast? = some 'T' ∧
      (scanFlags initMW ['B', 'T']).keepAtTop = true ∧
      (scanFlags initMW ['B', 'T']).keepAtBottom = false) :=
  ⟨decode_pin_mutex.1 (some "@!TB"),
   ⟨by decide, decode_pin_mutex.2.1 initMW ['T', 'B'] (by decide)⟩,
   ⟨by decide, decode_pin_mutex.2.2 initMW ['B', 'T'] (by decide)⟩⟩

/-- Claim C6: a title ending in exactly one trailing space decodes exactly
like the literal "@!H", and a title whose last two characters are spaces
(two or more trailing spaces) decodes exactly like "@!HTD". -/
theorem decode_trailing_space_equiv :
    (∀ t : String, endsExactlyOneSpace t.toList = true →
        decode (some t) = decode (some "@!H")) ∧
    (∀ t : String, endsTwoSpaces t.toList = true →
        decode (some t) = decode (some "@!HTD")) := by
  constructor <;> intro t h
  · have hd : decode (some t) = parseTitleCore (rewriteTrailing t.toList) := rfl
    rw [hd, rewriteTrailing_one _ h]
    rfl
  · have hd : decode (some t) = parseTitleCore (rewriteTrailing t.toList) := rfl
    rw [hd, rewriteTrailing_two _ h]
    rfl

theorem decode_trailing_space_equiv_witness :
    (endsExactlyOneSpace "x ".toList = true ∧
      decode (some "x ") = decode (some "@!H")) ∧
    (endsTwoSpaces "x  ".toList = true ∧
      decode (some "x  ") = decode (some "@!HTD")) :=
  ⟨⟨by decide, decode_trailing_space_equiv.1 "x " (by decide)⟩,
   ⟨by decide, decode_trailing_space_equiv.2 "x  " (by decide)⟩⟩

/-- Claim C7: the code was meant to take the coordinate field up to the
next semicolon at or after the marker, but String.search ignores its second
argument, so the first semicolon of the whole title is used and substring
swaps its bounds; on ";@!5,7" the intended field is "5,7" (which parses as
5 and 7), while the code produces NaN coordinates. -/
theorem search_from_index_ignored :
    claimCoordinateField ";@!5,7".toList = some "5,7".toList ∧
    jsParseInt "5".toList = JSNum.int 5 ∧
    jsParseInt "7".toList = JSNum.int 7 ∧
    (decode (some ";@!5,7")).x = some JSNum.nan ∧
    (decode (some ";@!5,7")).y = some JSNum.nan := by decide

/-- Claim C8, counterexample: decoding "@!10,20;BH" sets
hideFromWindowList (the flag scan covers the whole suffix after the marker,
semicolon included), contradicting "every other field at its default". -/
theorem decode_example_counterexample :
    (decode (some "@!10,20;BH")).hideFromWindowList = true := by decide

/-- Claim C8, amended: decoding "@!10,20;BH" yields position (10,20),
pinBottom=true, hideFromWindowList=true, and the remaining fields at their
defaults. -/
theorem decode_example_full :
    decode (some "@!10,20;BH") =
      { x := some (JSNum.int 10), y := some (JSNum.int 20),
        keepAtBottom := true, keepAtTop := false, showInAllDesktops := false,
        hideFromWindowList := true, fixed := false } := by decide

/-- Claim C2, counterexample: two triggers in one turn, the first with
checkWorkspace=false and the second with checkWorkspace=true; the single
pass that executes runs with checkWorkspace=false (the second trigger is
ignored entirely while a pass is pending — no upgrade happens), although a
trigger did request true. -/
theorem refresh_upgrade_counterexample :
    (true ∈ [false, true]) ∧
    (runTriggers [false, true]
        { initCoord false with windowList := [⟨0, true, false, false⟩] }).activateWindowID =
      some false ∧
    (idleCallback [] (runTriggers [false, true]
        { initCoord false with windowList := [⟨0, true, false, false⟩] })).2 =
      [CAction.refreshState 0 false] := by decide

/-- Claim C2, amended: N triggers within one turn produce exactly one
deferred pass, and that pass runs with the checkWorkspace flag of the FIRST
trigger of the turn; triggers arriving while a pass is pending are ignored
(the captured flag is neither upgraded nor downgraded), and the pass clears
the pending handle. -/
theorem refresh_coalesce_first_trigger_wins (cw : Bool) (cws : List Bool) (s : Coord)
    (h : s.activateWindowID = none) :
    (runTriggers (cw :: cws) s).activateWindowID = some cw ∧
    ∀ tabs : List WindowRec,
      ((idleCallback tabs (runTriggers (cw :: cws) s)).1).activateWindowID = none := by
  have hr : refreshWindows cw s = { s with activateWindowID := some cw } := by
    unfold refreshWindows
    rw [h]
  have h1 : runTriggers (cw :: cws) s = { s with activateWindowID := some cw } := by
    show runTriggers cws (refreshWindows cw s) = _
    rw [hr]
    exact runTriggers_pending cws _ rfl
  refine ⟨by rw [h1], fun tabs => ?_⟩
  rw [h1]
  rfl

theorem refresh_coalesce_first_trigger_wins_witness :
    (initCoord false).activateWindowID = none ∧
    (runTriggers [false, true] (initCoord false)).activateWindowID = some false ∧
    ((idleCallback [] (runTriggers [false, true] (initCoord false))).1).activateWindowID = none :=
  ⟨rfl, (refresh_coalesce_first_trigger_wins false [true] (initCoord false) rfl).1,
    (refresh_coalesce_first_trigger_wins false [true] (initCoord false) rfl).2 []⟩

/-- Claim C4: the activation arbitration of the refresh pass equals the
spec-worded arbitration (skip minimized windows and bottom-pinned records
in the stacking list, activate the first match; else the first
non-minimized bottom-pinned managed window; else nothing), and on the
scenario [A bottom-pinned on top, B normal, C minimized at the bottom] it
activates B; a lone bottom-pinned window is activated via the fallback; and
with no eligible window at all no activation occurs. -/
theorem activation_arbitration_correct :
    (∀ tabs managed : List WindowRec,
        activationTarget tabs managed = specActivationTarget tabs managed) ∧
    activationTarget
        [⟨1, true, true, false⟩, ⟨2, false, false, false⟩, ⟨3, false, false, true⟩]
        [⟨1, true, true, false⟩] = some ⟨2, false, false, false⟩ ∧
    activationTarget [⟨1, true, true, false⟩] [⟨1, true, true, false⟩] =
      some ⟨1, true, true, false⟩ ∧
    activationTarget [⟨3, false, false, true⟩] [] = none := by
  refine ⟨?_, by decide, by decide, by decide⟩
  intro tabs managed
  unfold activationTarget specActivationTarget
  rw [find?_ext (fun w => (!w.hasDing || !w.keepAtBottom) && !w.minimized)
        (fun w => !w.minimized && !(w.hasDing && w.keepAtBottom)) tabs
        (fun w => by rcases w with ⟨i, d, b, m⟩; cases d <;> cases b <;> cases m <;> rfl),
      find?_ext (fun w => w.hasDing && w.keepAtBottom && !w.minimized)
        (fun w => !w.minimized && w.hasDing && w.keepAtBottom) managed
        (fun w => by rcases w with ⟨i, d, b, m⟩; cases d <;> cases b <;> cases m <;> rfl)]

/-- Claim C9, counterexample: disable() does not reset the enableRefresh
flag, so calling it while the overview is showing leaves the coordinator in
a state different from the one before enable() was ever called. -/
theorem disable_state_counterexample :
    disable (overviewShowing (enable (initCoord false))) ≠ initCoord false ∧
    (disable (overviewShowing (enable (initCoord false)))).enableRefresh = false ∧
    (initCoord false).enableRefresh = true := by decide

/-- Claim C9, amended: from any wayland-side state whose live handler
counts match its stored handler ids, disable() cancels the pending refresh,
clears every managed record and unsubscribes every compositor-wide
subscription, restoring the constructor state except for the enableRefresh
flag, which keeps its current value; an immediate re-enable therefore
finds zero stale records and creates no duplicate subscriptions. -/
theorem disable_restores_except_enableRefresh (s : Coord)
    (hx : s.isX11 = false) (hc : subsConsistent s = true) :
    disable s = { initCoord false with enableRefresh := s.enableRefresh } ∧
    enable (disable s) =
      { enable (initCoord false) with enableRefresh := s.enableRefresh } := by
  obtain ⟨x11, wl, er, awid, im, idd, swi, sho, hid, ms, ds, ss, shs, hs⟩ := s
  simp only at hx
  subst hx
  simp only [subsConsistent, Bool.and_eq_true, beq_iff_eq] at hc
  cases im <;> cases idd <;> cases swi <;> cases sho <;> cases hid <;> cases awid <;>
    simp_all [disable, enable, initCoord]

theorem disable_restores_except_enableRefresh_witness :
    (enable (initCoord false)).isX11 = false ∧
    subsConsistent (enable (initCoord false)) = true ∧
    disable (enable (initCoord false)) =
      { initCoord false with enableRefresh := (enable (initCoord false)).enableRefresh } ∧
    enable (disable (enable (initCoord false))) =
      { enable (initCoord false) with
          enableRefresh := (enable (initCoord false)).enableRefresh } :=
  ⟨by decide, by decide,
    (disable_restores_except_enableRefresh (enable (initCoord false)) (by decide) (by decide)).1,
    (disable_restores_except_enableRefresh (enable (initCoord false)) (by decide) (by decide)).2⟩

/-- Claim C10: when a refresh was triggered while the overview is showing
(enableRefresh is false), the pending pass still runs, performs no
enforcement or activation work, and clears the pending handle; the dropped
work is replayed only because the overview-hiding handler re-enables
refresh and schedules a fresh workspace-checking (checkWorkspace=true)
pass itself. -/
theorem overview_pending_pass_dropped (s : Coord) (tabs : List WindowRec) (cw : Bool)
    (hE : s.enableRefresh = false) (hP : s.activateWindowID = some cw)
    (hH : s.hidingId = true) :
    (idleCallback tabs s).2 = [] ∧
    ((idleCallback tabs s).1).activateWindowID = none ∧
    (overviewHiding ((idleCallback tabs s).1)).enableRefresh = true ∧
    (overviewHiding ((idleCallback tabs s).1)).activateWindowID = some true := by
  simp [idleCallback, overviewHiding, refreshWindows, hE, hP, hH]

/-- A coordinator state observed mid-overview: refresh disabled, one
pending pass (captured flag false), with the hiding handler connected. -/
def overviewPendingSample : Coord :=
  { initCoord false with
      enableRefresh := false,
      activateWindowID := some false,
      hidingId := true }

theorem overview_pending_pass_dropped_witness :
    overviewPendingSample.enableRefresh = false ∧
    overviewPendingSample.activateWindowID = some false ∧
    overviewPendingSample.hidingId = true ∧
    ((idleCallback [] overviewPendingSample).2 = [] ∧
      ((idleCallback [] overviewPendingSample).1).activateWindowID = none ∧
      (overviewHiding ((idleCallback [] overviewPendingSample).1)).enableRefresh = true ∧
      (overviewHiding ((idleCallback [] overviewPendingSample).1)).activateWindowID = some true) :=
  ⟨rfl, rfl, rfl,
    overview_pending_pass_dropped overviewPendingSample [] false rfl rfl rfl⟩
